import Mathlib

/-!
Shallow embedding of the `rlox` scanner (`src/scanner.rs`, `src/token.rs`).

The source text is modelled as a `List Char`; the scanner is byte-based and
only ASCII is supported by the code (each relevant byte is one `Char`).
Rust's `while` loops are modelled by fuel-indexed structural recursion; every
call site passes `source.length - current` fuel, which is proved sufficient
(each iteration advances `current` by one and the loop stops at end of input).
A Rust panic (index out of bounds in `Scanner::advance`) is modelled as
`none`; code that cannot panic is total.
-/

/-- Token kinds from `src/token.rs` (`enum TokenType`).  The `Number` payload
is the matched numeral text; the Rust code stores the `f32` obtained by
`parse().unwrap()` on exactly that text (floating point is outside this
embedding, and the parse cannot fail on a digit-run lexeme). -/
inductive TokenType where
  | LeftParen | RightParen | LeftBrace | RightBrace
  | Comma | Dot | Minus | Plus | Semicolon | Slash | Star
  | Bang | BangEqual
  | Equal | EqualEqual
  | Greater | GreaterEqual
  | Less | LessEqual
  | Identifier (text : List Char)
  | String (value : List Char)
  | Number (text : List Char)
  | And | Class | Else | False | Fun | For | If | Nil | Or
  | Print | Return | Super | This | True | Var | While
  | Eof
  deriving DecidableEq

/-- True exactly on the end-of-input sentinel kind. -/
def TokenType.isEof : TokenType → Bool
  | .Eof => true
  | _ => false

/-- A token record from `src/token.rs` (`struct Token`): kind, exact source
lexeme, and 1-based line number at finalization time. -/
structure Token where
  type_ : TokenType
  lexeme : List Char
  line : Nat
  deriving DecidableEq

/-- Error kinds from `src/scanner.rs` (`enum ScannerErrorType`). -/
inductive ScannerErrorType where
  | UnexpectedCharacter (c : Char)
  | UnterminatedString
  deriving DecidableEq

/-- A line-stamped diagnostic from `src/scanner.rs` (`struct ScannerError`). -/
structure ScannerError where
  error : ScannerErrorType
  line : Nat
  deriving DecidableEq

/-- Scanner state from `src/scanner.rs` (`struct Scanner`). -/
structure Scanner where
  source : List Char
  tokens : List Token
  errors : List ScannerError
  start : Nat
  current : Nat
  line : Nat
  deriving DecidableEq

/-- The slice `&source[a..b]` of Rust (at the call sites below, always taken
with `a ≤ b ≤ source.len()`). -/
def sub (l : List Char) (a b : Nat) : List Char :=
  (l.drop a).take (b - a)

/-- `Scanner::new`. -/
def Scanner.new (source : List Char) : Scanner :=
  { source := source, tokens := [], errors := [], start := 0, current := 0, line := 1 }

/-- `Scanner::is_at_end`: `current >= source.len()`. -/
def Scanner.is_at_end (s : Scanner) : Bool :=
  decide (s.source.length ≤ s.current)

/-- `Scanner::peek`: the current character, or `\0` past the end. -/
def Scanner.peek (s : Scanner) : Char :=
  match s.source[s.current]? with
  | none => Char.ofNat 0
  | some c => c

/-- `Scanner::peek_next`: the character after the current one, or `\0`. -/
def Scanner.peek_next (s : Scanner) : Char :=
  match s.source[s.current + 1]? with
  | none => Char.ofNat 0
  | some c => c

/-- `Scanner::advance`: consume and return the current character.  The Rust
code indexes `source.as_bytes()[current]` after incrementing `current`, which
panics (modelled as `none`) when `current` is already past the end. -/
def Scanner.advance (s : Scanner) : Option (Char × Scanner) :=
  match s.source[s.current]? with
  | none => none
  | some c => some (c, { s with current := s.current + 1 })

/-- `Scanner::match_`: consume the current character iff it equals
`expected`. -/
def Scanner.match_ (s : Scanner) (expected : Char) : Bool × Scanner :=
  match s.source[s.current]? with
  | none => (false, s)
  | some c =>
    if c ≠ expected then (false, s)
    else (true, { s with current := s.current + 1 })

/-- `Scanner::add_token`: push a token whose lexeme is `source[start..current]`
stamped with the current line. -/
def Scanner.add_token (s : Scanner) (type_ : TokenType) : Scanner :=
  { s with tokens := s.tokens ++ [{ type_ := type_, lexeme := sub s.source s.start s.current, line := s.line }] }

/-- `Scanner::add_error`: push a diagnostic stamped with the current line. -/
def Scanner.add_error (s : Scanner) (error : ScannerErrorType) : Scanner :=
  { s with errors := s.errors ++ [{ error := error, line := s.line }] }

/-- The `while` loop of `Scanner::string`: consume characters until a `"` or
end of input, bumping the line counter at each newline. -/
def stringLoopF : Nat → Scanner → Scanner
  | 0, s => s
  | fuel + 1, s =>
    if s.peek != '\"' && !s.is_at_end then
      stringLoopF fuel
        { s with line := if s.peek == '\n' then s.line + 1 else s.line,
                 current := s.current + 1 }
    else s

/-- `Scanner::string`'s scanning loop with sufficient fuel. -/
def Scanner.stringLoop (s : Scanner) : Scanner :=
  stringLoopF (s.source.length - s.current) s

/-- The digit-run loop shared by both parts of `Scanner::number`. -/
def digitsLoopF : Nat → Scanner → Scanner
  | 0, s => s
  | fuel + 1, s =>
    if s.peek.isDigit then
      digitsLoopF fuel { s with current := s.current + 1 }
    else s

/-- A digit-run loop of `Scanner::number` with sufficient fuel. -/
def Scanner.digitsLoop (s : Scanner) : Scanner :=
  digitsLoopF (s.source.length - s.current) s

/-- The `while` loop of `Scanner::identifier`: consume alphanumerics and
underscores. -/
def identLoopF : Nat → Scanner → Scanner
  | 0, s => s
  | fuel + 1, s =>
    if s.peek.isAlphanum || s.peek == '_' then
      identLoopF fuel { s with current := s.current + 1 }
    else s

/-- `Scanner::identifier`'s scanning loop with sufficient fuel. -/
def Scanner.identLoop (s : Scanner) : Scanner :=
  identLoopF (s.source.length - s.current) s

/-- The line-comment loop in `Scanner::scan_token`: consume until a newline
or end of input. -/
def commentLoopF : Nat → Scanner → Scanner
  | 0, s => s
  | fuel + 1, s =>
    if s.peek != '\n' && !s.is_at_end then
      commentLoopF fuel { s with current := s.current + 1 }
    else s

/-- The line-comment loop with sufficient fuel. -/
def Scanner.commentLoop (s : Scanner) : Scanner :=
  commentLoopF (s.source.length - s.current) s

/-- `Scanner::string`.  After the loop, if end of input was reached the error
is recorded — and then the code still executes `self.advance()` to "consume
the ending quote", which indexes past the end and panics (`none`). -/
def Scanner.string (s : Scanner) : Option Scanner :=
  match (if s.stringLoop.is_at_end then s.stringLoop.add_error ScannerErrorType.UnterminatedString
         else s.stringLoop).advance with
  | none => none
  | some (_, s3) =>
    some (s3.add_token (TokenType.String (sub s3.source (s3.start + 1) (s3.current - 1))))

/-- The last two lines of `Scanner::number`: emit the number token whose text
is `source[start..current]` (which the Rust code parses as `f32` and wraps in
`TokenType::Number`; the parse of a digit-run lexeme cannot fail). -/
def Scanner.numberFinish (s2 : Scanner) : Scanner :=
  s2.add_token (TokenType.Number (sub s2.source s2.start s2.current))

/-- `Scanner::number`.  The `self.advance()` consuming the `.` is guarded by
`peek() == '.'`, so it cannot panic and is modelled as `current + 1`. -/
def Scanner.number (s : Scanner) : Scanner :=
  Scanner.numberFinish
    (if s.digitsLoop.peek == '.' && s.digitsLoop.peek_next.isDigit then
      ({ s.digitsLoop with current := s.digitsLoop.current + 1 }).digitsLoop
    else s.digitsLoop)

/-- The keyword table of `Scanner::identifier`: the `match text` over the 16
reserved words, defaulting to `Identifier(text)`. -/
def keywordLookup (text : List Char) : TokenType :=
  if text = "and".toList then .And
  else if text = "class".toList then .Class
  else if text = "else".toList then .Else
  else if text = "false".toList then .False
  else if text = "for".toList then .For
  else if text = "fun".toList then .Fun
  else if text = "if".toList then .If
  else if text = "nil".toList then .Nil
  else if text = "or".toList then .Or
  else if text = "print".toList then .Print
  else if text = "return".toList then .Return
  else if text = "super".toList then .Super
  else if text = "this".toList then .This
  else if text = "true".toList then .True
  else if text = "var".toList then .Var
  else if text = "while".toList then .While
  else .Identifier text

/-- The tail of `Scanner::identifier`: look the matched text up in the
keyword table and emit the resulting token. -/
def Scanner.identFinish (s1 : Scanner) : Scanner :=
  s1.add_token (keywordLookup (sub s1.source s1.start s1.current))

/-- `Scanner::identifier`. -/
def Scanner.identifier (s : Scanner) : Scanner :=
  Scanner.identFinish s.identLoop

/-- The `match c` dispatch of `Scanner::scan_token`, applied to the state
`s1` left after consuming `c`.  Rust's `match` arms are rendered as an
if-chain in source order. -/
def Scanner.dispatch (s1 : Scanner) (c : Char) : Option Scanner :=
  if c = '(' then some (s1.add_token .LeftParen)
    else if c = ')' then some (s1.add_token .RightParen)
    else if c = '\x7b' then some (s1.add_token .LeftBrace)
    else if c = '\x7d' then some (s1.add_token .RightBrace)
    else if c = ',' then some (s1.add_token .Comma)
    else if c = '.' then some (s1.add_token .Dot)
    else if c = '-' then some (s1.add_token .Minus)
    else if c = '+' then some (s1.add_token .Plus)
    else if c = ';' then some (s1.add_token .Semicolon)
    else if c = '*' then some (s1.add_token .Star)
    else if c = '!' then
      some ((s1.match_ '=').2.add_token (if (s1.match_ '=').1 then .BangEqual else .Bang))
    else if c = '=' then
      some ((s1.match_ '=').2.add_token (if (s1.match_ '=').1 then .EqualEqual else .Equal))
    else if c = '<' then
      some ((s1.match_ '=').2.add_token (if (s1.match_ '=').1 then .LessEqual else .Less))
    else if c = '>' then
      some ((s1.match_ '=').2.add_token (if (s1.match_ '=').1 then .GreaterEqual else .Greater))
    else if c = '/' then
      if (s1.match_ '/').1 then some (s1.match_ '/').2.commentLoop
      else some ((s1.match_ '/').2.add_token .Slash)
    else if c = ' ' then some s1
    else if c = '\r' then some s1
    else if c = '\t' then some s1
    else if c = '\n' then some { s1 with line := s1.line + 1 }
    else if c = '\"' then s1.string
    else if c.isDigit then some s1.number
    else if c.isAlpha || c = '_' then some s1.identifier
    else some (s1.add_error (.UnexpectedCharacter c))

/-- `Scanner::scan_token`: consume one character and dispatch on it. -/
def Scanner.scan_token (s : Scanner) : Option Scanner :=
  match s.advance with
  | none => none
  | some (c, s1) => s1.dispatch c

/-- Outcome of the fueled main loop: finished state, a panic, or fuel ran out
(proved unreachable at the fuel used by `scan_tokens`). -/
inductive LoopRes where
  | ok (s : Scanner)
  | panic
  | fuelOut
  deriving DecidableEq

/-- True unless the fuel ran out. -/
def LoopRes.isDone : LoopRes → Bool
  | .fuelOut => false
  | _ => true

/-- The `while !self.is_at_end()` loop of `Scanner::scan_tokens`: set
`start := current` and scan one token, repeatedly. -/
def scanLoop : Nat → Scanner → LoopRes
  | 0, s => if s.is_at_end then .ok s else .fuelOut
  | fuel + 1, s =>
    if s.is_at_end then .ok s
    else
      match ({ s with start := s.current }).scan_token with
      | none => .panic
      | some s' => scanLoop fuel s'

/-- `Scanner::scan_tokens` on a fresh scanner: run the loop, then return the
token list capped with an `Eof` token if no error was recorded, and the
error list otherwise.  `none` models a panic (the fuel `source.length` is
proved sufficient, so `fuelOut` never occurs). -/
def scan_tokens (source : List Char) : Option (Except (List ScannerError) (List Token)) :=
  match scanLoop source.length (Scanner.new source) with
  | .panic => none
  | .fuelOut => none
  | .ok s =>
    if s.errors.isEmpty then
      some (.ok (s.tokens ++ [{ type_ := .Eof, lexeme := [], line := s.line }]))
    else
      some (.error s.errors)

/-! Helper lemmas about the scanner primitives. -/

lemma advance_eq_some {s s' : Scanner} {c : Char} (h : s.advance = some (c, s')) :
    s.source[s.current]? = some c ∧ s' = { s with current := s.current + 1 } := by
  unfold Scanner.advance at h
  cases hg : s.source[s.current]? with
  | none => rw [hg] at h; exact absurd h (by simp)
  | some d =>
    rw [hg] at h
    simp only [Option.some.injEq, Prod.mk.injEq] at h
    obtain ⟨hdc, hrec⟩ := h
    subst hdc
    exact ⟨rfl, hrec.symm⟩

lemma peek_eq_getElem {s : Scanner} (h : s.current < s.source.length) :
    s.peek = s.source[s.current] := by
  unfold Scanner.peek
  rw [List.getElem?_eq_getElem h]

lemma peek_of_at_end {s : Scanner} (h : s.source.length ≤ s.current) :
    s.peek = Char.ofNat 0 := by
  unfold Scanner.peek
  rw [List.getElem?_eq_none h]

lemma is_at_end_false_iff {s : Scanner} :
    s.is_at_end = false ↔ s.current < s.source.length := by
  unfold Scanner.is_at_end
  simp only [decide_eq_false_iff_not, Nat.not_le]

lemma sub_cons {l : List Char} {a b : Nat} (ha : a < l.length) (hab : a < b) :
    sub l a b = l[a] :: sub l (a + 1) b := by
  unfold sub
  rw [List.drop_eq_getElem_cons ha]
  have hb : b - a = (b - (a + 1)) + 1 := by omega
  rw [hb, List.take_succ_cons]

lemma match_spec (s : Scanner) (e : Char) :
    ((s.match_ e).2).source = s.source ∧ ((s.match_ e).2).start = s.start ∧
    ((s.match_ e).2).tokens = s.tokens ∧ ((s.match_ e).2).errors = s.errors ∧
    ((s.match_ e).2).line = s.line ∧ s.current ≤ ((s.match_ e).2).current := by
  unfold Scanner.match_
  cases hg : s.source[s.current]? with
  | none => exact ⟨rfl, rfl, rfl, rfl, rfl, Nat.le_refl _⟩
  | some c =>
    dsimp only
    split
    · exact ⟨rfl, rfl, rfl, rfl, rfl, Nat.le_refl _⟩
    · exact ⟨rfl, rfl, rfl, rfl, rfl, Nat.le_succ _⟩

lemma stringLoopF_spec (f : Nat) : ∀ s : Scanner,
    (stringLoopF f s).source = s.source ∧ (stringLoopF f s).start = s.start ∧
    (stringLoopF f s).tokens = s.tokens ∧ (stringLoopF f s).errors = s.errors ∧
    s.current ≤ (stringLoopF f s).current ∧ s.line ≤ (stringLoopF f s).line := by
  induction f with
  | zero => intro s; exact ⟨rfl, rfl, rfl, rfl, Nat.le_refl _, Nat.le_refl _⟩
  | succ f ih =>
    intro s
    rw [stringLoopF]
    split
    · obtain ⟨h1, h2, h3, h4, h5, h6⟩ :=
        ih { s with line := if s.peek == '\n' then s.line + 1 else s.line,
                    current := s.current + 1 }
      refine ⟨h1, h2, h3, h4, Nat.le_trans (Nat.le_succ _) h5, Nat.le_trans ?_ h6⟩
      dsimp only
      split <;> omega
    · exact ⟨rfl, rfl, rfl, rfl, Nat.le_refl _, Nat.le_refl _⟩

lemma digitsLoopF_spec (f : Nat) : ∀ s : Scanner,
    (digitsLoopF f s).source = s.source ∧ (digitsLoopF f s).start = s.start ∧
    (digitsLoopF f s).tokens = s.tokens ∧ (digitsLoopF f s).errors = s.errors ∧
    (digitsLoopF f s).line = s.line ∧ s.current ≤ (digitsLoopF f s).current := by
  induction f with
  | zero => intro s; exact ⟨rfl, rfl, rfl, rfl, rfl, Nat.le_refl _⟩
  | succ f ih =>
    intro s
    rw [digitsLoopF]
    split
    · obtain ⟨h1, h2, h3, h4, h5, h6⟩ := ih { s with current := s.current + 1 }
      exact ⟨h1, h2, h3, h4, h5, Nat.le_trans (Nat.le_succ _) h6⟩
    · exact ⟨rfl, rfl, rfl, rfl, rfl, Nat.le_refl _⟩

lemma identLoopF_spec (f : Nat) : ∀ s : Scanner,
    (identLoopF f s).source = s.source ∧ (identLoopF f s).start = s.start ∧
    (identLoopF f s).tokens = s.tokens ∧ (identLoopF f s).errors = s.errors ∧
    (identLoopF f s).line = s.line ∧ s.current ≤ (identLoopF f s).current := by
  induction f with
  | zero => intro s; exact ⟨rfl, rfl, rfl, rfl, rfl, Nat.le_refl _⟩
  | succ f ih =>
    intro s
    rw [identLoopF]
    split
    · obtain ⟨h1, h2, h3, h4, h5, h6⟩ := ih { s with current := s.current + 1 }
      exact ⟨h1, h2, h3, h4, h5, Nat.le_trans (Nat.le_succ _) h6⟩
    · exact ⟨rfl, rfl, rfl, rfl, rfl, Nat.le_refl _⟩

lemma commentLoopF_spec (f : Nat) : ∀ s : Scanner,
    (commentLoopF f s).source = s.source ∧ (commentLoopF f s).start = s.start ∧
    (commentLoopF f s).tokens = s.tokens ∧ (commentLoopF f s).errors = s.errors ∧
    (commentLoopF f s).line = s.line ∧ s.current ≤ (commentLoopF f s).current := by
  induction f with
  | zero => intro s; exact ⟨rfl, rfl, rfl, rfl, rfl, Nat.le_refl _⟩
  | succ f ih =>
    intro s
    rw [commentLoopF]
    split
    · obtain ⟨h1, h2, h3, h4, h5, h6⟩ := ih { s with current := s.current + 1 }
      exact ⟨h1, h2, h3, h4, h5, Nat.le_trans (Nat.le_succ _) h6⟩
    · exact ⟨rfl, rfl, rfl, rfl, rfl, Nat.le_refl _⟩


lemma keywordLookup_ne_eof (text : List Char) : (keywordLookup text).isEof = false := by
  unfold keywordLookup
  by_cases h1 : text = "and".toList
  · rw [if_pos h1]; rfl
  rw [if_neg h1]
  by_cases h2 : text = "class".toList
  · rw [if_pos h2]; rfl
  rw [if_neg h2]
  by_cases h3 : text = "else".toList
  · rw [if_pos h3]; rfl
  rw [if_neg h3]
  by_cases h4 : text = "false".toList
  · rw [if_pos h4]; rfl
  rw [if_neg h4]
  by_cases h5 : text = "for".toList
  · rw [if_pos h5]; rfl
  rw [if_neg h5]
  by_cases h6 : text = "fun".toList
  · rw [if_pos h6]; rfl
  rw [if_neg h6]
  by_cases h7 : text = "if".toList
  · rw [if_pos h7]; rfl
  rw [if_neg h7]
  by_cases h8 : text = "nil".toList
  · rw [if_pos h8]; rfl
  rw [if_neg h8]
  by_cases h9 : text = "or".toList
  · rw [if_pos h9]; rfl
  rw [if_neg h9]
  by_cases h10 : text = "print".toList
  · rw [if_pos h10]; rfl
  rw [if_neg h10]
  by_cases h11 : text = "return".toList
  · rw [if_pos h11]; rfl
  rw [if_neg h11]
  by_cases h12 : text = "super".toList
  · rw [if_pos h12]; rfl
  rw [if_neg h12]
  by_cases h13 : text = "this".toList
  · rw [if_pos h13]; rfl
  rw [if_neg h13]
  by_cases h14 : text = "true".toList
  · rw [if_pos h14]; rfl
  rw [if_neg h14]
  by_cases h15 : text = "var".toList
  · rw [if_pos h15]; rfl
  rw [if_neg h15]
  by_cases h16 : text = "while".toList
  · rw [if_pos h16]; rfl
  rw [if_neg h16]
  rfl

lemma stringLoop_spec (s : Scanner) :
    (s.stringLoop).source = s.source ∧ (s.stringLoop).start = s.start ∧
    (s.stringLoop).tokens = s.tokens ∧ (s.stringLoop).errors = s.errors ∧
    s.current ≤ (s.stringLoop).current ∧ s.line ≤ (s.stringLoop).line :=
  stringLoopF_spec (s.source.length - s.current) s

lemma digitsLoop_spec (s : Scanner) :
    (s.digitsLoop).source = s.source ∧ (s.digitsLoop).start = s.start ∧
    (s.digitsLoop).tokens = s.tokens ∧ (s.digitsLoop).errors = s.errors ∧
    (s.digitsLoop).line = s.line ∧ s.current ≤ (s.digitsLoop).current :=
  digitsLoopF_spec (s.source.length - s.current) s

lemma identLoop_spec (s : Scanner) :
    (s.identLoop).source = s.source ∧ (s.identLoop).start = s.start ∧
    (s.identLoop).tokens = s.tokens ∧ (s.identLoop).errors = s.errors ∧
    (s.identLoop).line = s.line ∧ s.current ≤ (s.identLoop).current :=
  identLoopF_spec (s.source.length - s.current) s

lemma commentLoop_spec (s : Scanner) :
    (s.commentLoop).source = s.source ∧ (s.commentLoop).start = s.start ∧
    (s.commentLoop).tokens = s.tokens ∧ (s.commentLoop).errors = s.errors ∧
    (s.commentLoop).line = s.line ∧ s.current ≤ (s.commentLoop).current :=
  commentLoopF_spec (s.source.length - s.current) s

/-- Invariant carried through the main loop: no `Eof` token has been pushed,
token lines are pairwise non-decreasing, every token line lies between 1 and
the current line counter, and the counter itself is at least 1. -/
def tokensInv (s : Scanner) : Prop :=
  (∀ t ∈ s.tokens, t.type_.isEof = false) ∧
  List.Pairwise (fun a b : Token => a.line ≤ b.line) s.tokens ∧
  (∀ t ∈ s.tokens, t.line ≤ s.line ∧ 1 ≤ t.line) ∧ 1 ≤ s.line

lemma tokensInv_congr {x y : Scanner} (hx : tokensInv x) (ht : y.tokens = x.tokens)
    (hl : x.line ≤ y.line) : tokensInv y := by
  obtain ⟨i1, i2, i3, i4⟩ := hx
  refine ⟨?_, ?_, ?_, Nat.le_trans i4 hl⟩
  · intro t htm
    rw [ht] at htm
    exact i1 t htm
  · rw [ht]
    exact i2
  · intro t htm
    rw [ht] at htm
    exact ⟨Nat.le_trans (i3 t htm).1 hl, (i3 t htm).2⟩

lemma tokensInv_add_token {x : Scanner} (hx : tokensInv x) (T : TokenType)
    (hT : T.isEof = false) : tokensInv (x.add_token T) := by
  obtain ⟨i1, i2, i3, i4⟩ := hx
  refine ⟨?_, ?_, ?_, i4⟩
  · intro t htm
    have htm' : t ∈ x.tokens ++
        [{ type_ := T, lexeme := sub x.source x.start x.current, line := x.line }] := htm
    rcases List.mem_append.mp htm' with hmem | hmem
    · exact i1 t hmem
    · rw [List.mem_singleton] at hmem
      subst hmem
      exact hT
  · show List.Pairwise _ (x.tokens ++
      [{ type_ := T, lexeme := sub x.source x.start x.current, line := x.line }])
    refine List.pairwise_append.mpr ⟨i2, List.pairwise_singleton _ _, ?_⟩
    intro a ha b hb
    rw [List.mem_singleton] at hb
    subst hb
    exact (i3 a ha).1
  · intro t htm
    have htm' : t ∈ x.tokens ++
        [{ type_ := T, lexeme := sub x.source x.start x.current, line := x.line }] := htm
    rcases List.mem_append.mp htm' with hmem | hmem
    · exact ⟨(i3 t hmem).1, (i3 t hmem).2⟩
    · rw [List.mem_singleton] at hmem
      subst hmem
      exact ⟨Nat.le_refl _, i4⟩

lemma string_step {s s' : Scanner} (h : s.string = some s') :
    s'.source = s.source ∧ s'.start = s.start ∧ s.current ≤ s'.current ∧
    s.line ≤ s'.line ∧ s'.errors = s.errors ∧ (tokensInv s → tokensInv s') := by
  obtain ⟨l1, l2, l3, l4, l5, l6⟩ := stringLoop_spec s
  unfold Scanner.string at h
  cases hend : (s.stringLoop).is_at_end with
  | true =>
    rw [hend] at h
    rw [if_pos rfl] at h
    have hlen : ((s.stringLoop).add_error ScannerErrorType.UnterminatedString).source.length ≤
        ((s.stringLoop).add_error ScannerErrorType.UnterminatedString).current := by
      show (s.stringLoop).source.length ≤ (s.stringLoop).current
      unfold Scanner.is_at_end at hend
      exact of_decide_eq_true hend
    have hadv : ((s.stringLoop).add_error ScannerErrorType.UnterminatedString).advance = none := by
      unfold Scanner.advance
      rw [List.getElem?_eq_none hlen]
    rw [hadv] at h
    exact Option.noConfusion h
  | false =>
    rw [hend] at h
    rw [if_neg Bool.false_ne_true] at h
    have hlt : (s.stringLoop).current < (s.stringLoop).source.length := is_at_end_false_iff.mp hend
    have hadv : (s.stringLoop).advance =
        some ((s.stringLoop).source[(s.stringLoop).current],
              { s.stringLoop with current := (s.stringLoop).current + 1 }) := by
      unfold Scanner.advance
      rw [List.getElem?_eq_getElem hlt]
    rw [hadv] at h
    have h2 := Option.some.inj h
    subst h2
    refine ⟨l1, l2, Nat.le_trans l5 (Nat.le_succ _), l6, l4, ?_⟩
    intro hinv
    refine tokensInv_add_token (tokensInv_congr hinv ?_ ?_) _ rfl
    · exact l3
    · exact l6

lemma number_step (s : Scanner) :
    (s.number).source = s.source ∧ (s.number).start = s.start ∧
    (s.number).errors = s.errors ∧ (s.number).line = s.line ∧
    s.current ≤ (s.number).current ∧ (tokensInv s → tokensInv (s.number)) := by
  obtain ⟨d1, d2, d3, d4, d5, d6⟩ := digitsLoop_spec s
  unfold Scanner.number Scanner.numberFinish
  by_cases hc : ((s.digitsLoop).peek == '.' && (s.digitsLoop).peek_next.isDigit) = true
  · rw [if_pos hc]
    obtain ⟨e1, e2, e3, e4, e5, e6⟩ :=
      digitsLoop_spec { s.digitsLoop with current := (s.digitsLoop).current + 1 }
    refine ⟨e1.trans d1, e2.trans d2, e4.trans d4, e5.trans d5,
      Nat.le_trans d6 (Nat.le_trans (Nat.le_succ _) e6), ?_⟩
    intro hinv
    refine tokensInv_add_token (tokensInv_congr hinv (e3.trans d3) ?_) _ rfl
    exact Nat.le_of_eq (e5.trans d5).symm
  · rw [if_neg hc]
    refine ⟨d1, d2, d4, d5, d6, ?_⟩
    intro hinv
    exact tokensInv_add_token (tokensInv_congr hinv d3 (Nat.le_of_eq d5.symm)) _ rfl

lemma identifier_step (s : Scanner) :
    (s.identifier).source = s.source ∧ (s.identifier).start = s.start ∧
    (s.identifier).errors = s.errors ∧ (s.identifier).line = s.line ∧
    s.current ≤ (s.identifier).current ∧ (tokensInv s → tokensInv (s.identifier)) := by
  obtain ⟨d1, d2, d3, d4, d5, d6⟩ := identLoop_spec s
  unfold Scanner.identifier Scanner.identFinish
  refine ⟨d1, d2, d4, d5, d6, ?_⟩
  intro hinv
  exact tokensInv_add_token (tokensInv_congr hinv d3 (Nat.le_of_eq d5.symm)) _
    (keywordLookup_ne_eof _)

set_option maxHeartbeats 2000000 in
lemma scan_token_step {s s' : Scanner} (h : s.scan_token = some s') :
    s'.source = s.source ∧ s.current < s'.current ∧ s.line ≤ s'.line ∧
    (tokensInv s → tokensInv s') := by
  cases hadv : s.advance with
  | none =>
    unfold Scanner.scan_token at h
    rw [hadv] at h
    exact Option.noConfusion h
  | some p =>
    obtain ⟨c, s1⟩ := p
    have hdisp : s.scan_token = s1.dispatch c := by
      unfold Scanner.scan_token
      rw [hadv]
    rw [hdisp] at h
    obtain ⟨hget, hs1⟩ := advance_eq_some hadv
    subst hs1
    unfold Scanner.dispatch at h
    by_cases hc1 : c = '('
    · rw [if_pos hc1] at h
      have hx := Option.some.inj h
      subst hx
      exact ⟨rfl, Nat.lt_succ_self _, Nat.le_refl _,
        fun hi => tokensInv_add_token (tokensInv_congr hi
    (rfl : ({ s with current := s.current + 1 } : Scanner).tokens = s.tokens)
    (Nat.le_refl _)) TokenType.LeftParen rfl⟩
    rw [if_neg hc1] at h
    by_cases hc2 : c = ')'
    · rw [if_pos hc2] at h
      have hx := Option.some.inj h
      subst hx
      exact ⟨rfl, Nat.lt_succ_self _, Nat.le_refl _,
        fun hi => tokensInv_add_token (tokensInv_congr hi
    (rfl : ({ s with current := s.current + 1 } : Scanner).tokens = s.tokens)
    (Nat.le_refl _)) TokenType.RightParen rfl⟩
    rw [if_neg hc2] at h
    by_cases hc3 : c = '\x7b'
    · rw [if_pos hc3] at h
      have hx := Option.some.inj h
      subst hx
      exact ⟨rfl, Nat.lt_succ_self _, Nat.le_refl _,
        fun hi => tokensInv_add_token (tokensInv_congr hi
    (rfl : ({ s with current := s.current + 1 } : Scanner).tokens = s.tokens)
    (Nat.le_refl _)) TokenType.LeftBrace rfl⟩
    rw [if_neg hc3] at h
    by_cases hc4 : c = '\x7d'
    · rw [if_pos hc4] at h
      have hx := Option.some.inj h
      subst hx
      exact ⟨rfl, Nat.lt_succ_self _, Nat.le_refl _,
        fun hi => tokensInv_add_token (tokensInv_congr hi
    (rfl : ({ s with current := s.current + 1 } : Scanner).tokens = s.tokens)
    (Nat.le_refl _)) TokenType.RightBrace rfl⟩
    rw [if_neg hc4] at h
    by_cases hc5 : c = ','
    · rw [if_pos hc5] at h
      have hx := Option.some.inj h
      subst hx
      exact ⟨rfl, Nat.lt_succ_self _, Nat.le_refl _,
        fun hi => tokensInv_add_token (tokensInv_congr hi
    (rfl : ({ s with current := s.current + 1 } : Scanner).tokens = s.tokens)
    (Nat.le_refl _)) TokenType.Comma rfl⟩
    rw [if_neg hc5] at h
    by_cases hc6 : c = '.'
    · rw [if_pos hc6] at h
      have hx := Option.some.inj h
      subst hx
      exact ⟨rfl, Nat.lt_succ_self _, Nat.le_refl _,
        fun hi => tokensInv_add_token (tokensInv_congr hi
    (rfl : ({ s with current := s.current + 1 } : Scanner).tokens = s.tokens)
    (Nat.le_refl _)) TokenType.Dot rfl⟩
    rw [if_neg hc6] at h
    by_cases hc7 : c = '-'
    · rw [if_pos hc7] at h
      have hx := Option.some.inj h
      subst hx
      exact ⟨rfl, Nat.lt_succ_self _, Nat.le_refl _,
        fun hi => tokensInv_add_token (tokensInv_congr hi
    (rfl : ({ s with current := s.current + 1 } : Scanner).tokens = s.tokens)
    (Nat.le_refl _)) TokenType.Minus rfl⟩
    rw [if_neg hc7] at h
    by_cases hc8 : c = '+'
    · rw [if_pos hc8] at h
      have hx := Option.some.inj h
      subst hx
      exact ⟨rfl, Nat.lt_succ_self _, Nat.le_refl _,
        fun hi => tokensInv_add_token (tokensInv_congr hi
    (rfl : ({ s with current := s.current + 1 } : Scanner).tokens = s.tokens)
    (Nat.le_refl _)) TokenType.Plus rfl⟩
    rw [if_neg hc8] at h
    by_cases hc9 : c = ';'
    · rw [if_pos hc9] at h
      have hx := Option.some.inj h
      subst hx
      exact ⟨rfl, Nat.lt_succ_self _, Nat.le_refl _,
        fun hi => tokensInv_add_token (tokensInv_congr hi
    (rfl : ({ s with current := s.current + 1 } : Scanner).tokens = s.tokens)
    (Nat.le_refl _)) TokenType.Semicolon rfl⟩
    rw [if_neg hc9] at h
    by_cases hc10 : c = '*'
    · rw [if_pos hc10] at h
      have hx := Option.some.inj h
      subst hx
      exact ⟨rfl, Nat.lt_succ_self _, Nat.le_refl _,
        fun hi => tokensInv_add_token (tokensInv_congr hi
    (rfl : ({ s with current := s.current + 1 } : Scanner).tokens = s.tokens)
    (Nat.le_refl _)) TokenType.Star rfl⟩
    rw [if_neg hc10] at h
    by_cases hc11 : c = '!'
    · rw [if_pos hc11] at h
      cases hb : (({ s with current := s.current + 1 } : Scanner).match_ '=').1 with
      | true =>
        rw [hb, if_pos rfl] at h
        have hx := Option.some.inj h
        subst hx
        obtain ⟨m1, m2, m3, m4, m5, m6⟩ := match_spec { s with current := s.current + 1 } '='
        exact ⟨m1, Nat.lt_of_lt_of_le (Nat.lt_succ_self _) m6, Nat.le_of_eq m5.symm,
          fun hi => tokensInv_add_token (tokensInv_congr hi m3 (Nat.le_of_eq m5.symm)) _ rfl⟩
      | false =>
        rw [hb, if_neg Bool.false_ne_true] at h
        have hx := Option.some.inj h
        subst hx
        obtain ⟨m1, m2, m3, m4, m5, m6⟩ := match_spec { s with current := s.current + 1 } '='
        exact ⟨m1, Nat.lt_of_lt_of_le (Nat.lt_succ_self _) m6, Nat.le_of_eq m5.symm,
          fun hi => tokensInv_add_token (tokensInv_congr hi m3 (Nat.le_of_eq m5.symm)) _ rfl⟩
    rw [if_neg hc11] at h
    by_cases hc12 : c = '='
    · rw [if_pos hc12] at h
      cases hb : (({ s with current := s.current + 1 } : Scanner).match_ '=').1 with
      | true =>
        rw [hb, if_pos rfl] at h
        have hx := Option.some.inj h
        subst hx
        obtain ⟨m1, m2, m3, m4, m5, m6⟩ := match_spec { s with current := s.current + 1 } '='
        exact ⟨m1, Nat.lt_of_lt_of_le (Nat.lt_succ_self _) m6, Nat.le_of_eq m5.symm,
          fun hi => tokensInv_add_token (tokensInv_congr hi m3 (Nat.le_of_eq m5.symm)) _ rfl⟩
      | false =>
        rw [hb, if_neg Bool.false_ne_true] at h
        have hx := Option.some.inj h
        subst hx
        obtain ⟨m1, m2, m3, m4, m5, m6⟩ := match_spec { s with current := s.current + 1 } '='
        exact ⟨m1, Nat.lt_of_lt_of_le (Nat.lt_succ_self _) m6, Nat.le_of_eq m5.symm,
          fun hi => tokensInv_add_token (tokensInv_congr hi m3 (Nat.le_of_eq m5.symm)) _ rfl⟩
    rw [if_neg hc12] at h
    by_cases hc13 : c = '<'
    · rw [if_pos hc13] at h
      cases hb : (({ s with current := s.current + 1 } : Scanner).match_ '=').1 with
      | true =>
        rw [hb, if_pos rfl] at h
        have hx := Option.some.inj h
        subst hx
        obtain ⟨m1, m2, m3, m4, m5, m6⟩ := match_spec { s with current := s.current + 1 } '='
        exact ⟨m1, Nat.lt_of_lt_of_le (Nat.lt_succ_self _) m6, Nat.le_of_eq m5.symm,
          fun hi => tokensInv_add_token (tokensInv_congr hi m3 (Nat.le_of_eq m5.symm)) _ rfl⟩
      | false =>
        rw [hb, if_neg Bool.false_ne_true] at h
        have hx := Option.some.inj h
        subst hx
        obtain ⟨m1, m2, m3, m4, m5, m6⟩ := match_spec { s with current := s.current + 1 } '='
        exact ⟨m1, Nat.lt_of_lt_of_le (Nat.lt_succ_self _) m6, Nat.le_of_eq m5.symm,
          fun hi => tokensInv_add_token (tokensInv_congr hi m3 (Nat.le_of_eq m5.symm)) _ rfl⟩
    rw [if_neg hc13] at h
    by_cases hc14 : c = '>'
    · rw [if_pos hc14] at h
      cases hb : (({ s with current := s.current + 1 } : Scanner).match_ '=').1 with
      | true =>
        rw [hb, if_pos rfl] at h
        have hx := Option.some.inj h
        subst hx
        obtain ⟨m1, m2, m3, m4, m5, m6⟩ := match_spec { s with current := s.current + 1 } '='
        exact ⟨m1, Nat.lt_of_lt_of_le (Nat.lt_succ_self _) m6, Nat.le_of_eq m5.symm,
          fun hi => tokensInv_add_token (tokensInv_congr hi m3 (Nat.le_of_eq m5.symm)) _ rfl⟩
      | false =>
        rw [hb, if_neg Bool.false_ne_true] at h
        have hx := Option.some.inj h
        subst hx
        obtain ⟨m1, m2, m3, m4, m5, m6⟩ := match_spec { s with current := s.current + 1 } '='
        exact ⟨m1, Nat.lt_of_lt_of_le (Nat.lt_succ_self _) m6, Nat.le_of_eq m5.symm,
          fun hi => tokensInv_add_token (tokensInv_congr hi m3 (Nat.le_of_eq m5.symm)) _ rfl⟩
    rw [if_neg hc14] at h
    by_cases hc15 : c = '/'
    · rw [if_pos hc15] at h
      cases hb : (({ s with current := s.current + 1 } : Scanner).match_ '/').1 with
      | true =>
        rw [hb, if_pos rfl] at h
        have hx := Option.some.inj h
        subst hx
        obtain ⟨m1, m2, m3, m4, m5, m6⟩ := match_spec { s with current := s.current + 1 } '/'
        obtain ⟨k1, k2, k3, k4, k5, k6⟩ :=
          commentLoop_spec (({ s with current := s.current + 1 } : Scanner).match_ '/').2
        exact ⟨k1.trans m1, Nat.lt_of_lt_of_le (Nat.lt_succ_self _) (Nat.le_trans m6 k6),
          Nat.le_of_eq ((k5.trans m5).symm),
          fun hi => tokensInv_congr hi (k3.trans m3) (Nat.le_of_eq ((k5.trans m5).symm))⟩
      | false =>
        rw [hb, if_neg Bool.false_ne_true] at h
        have hx := Option.some.inj h
        subst hx
        obtain ⟨m1, m2, m3, m4, m5, m6⟩ := match_spec { s with current := s.current + 1 } '/'
        exact ⟨m1, Nat.lt_of_lt_of_le (Nat.lt_succ_self _) m6, Nat.le_of_eq m5.symm,
          fun hi => tokensInv_add_token (tokensInv_congr hi m3 (Nat.le_of_eq m5.symm)) _ rfl⟩
    rw [if_neg hc15] at h
    by_cases hc16 : c = ' '
    · rw [if_pos hc16] at h
      have hx := Option.some.inj h
      subst hx
      exact ⟨rfl, Nat.lt_succ_self _, Nat.le_refl _,
        fun hi => tokensInv_congr hi rfl (Nat.le_refl _)⟩
    rw [if_neg hc16] at h
    by_cases hc17 : c = '\r'
    · rw [if_pos hc17] at h
      have hx := Option.some.inj h
      subst hx
      exact ⟨rfl, Nat.lt_succ_self _, Nat.le_refl _,
        fun hi => tokensInv_congr hi rfl (Nat.le_refl _)⟩
    rw [if_neg hc17] at h
    by_cases hc18 : c = '\t'
    · rw [if_pos hc18] at h
      have hx := Option.some.inj h
      subst hx
      exact ⟨rfl, Nat.lt_succ_self _, Nat.le_refl _,
        fun hi => tokensInv_congr hi rfl (Nat.le_refl _)⟩
    rw [if_neg hc18] at h
    by_cases hc19 : c = '\n'
    · rw [if_pos hc19] at h
      have hx := Option.some.inj h
      subst hx
      exact ⟨rfl, Nat.lt_succ_self _, Nat.le_succ _,
        fun hi => tokensInv_congr hi rfl (Nat.le_succ _)⟩
    rw [if_neg hc19] at h
    by_cases hc20 : c = '\"'
    · rw [if_pos hc20] at h
      obtain ⟨t1, t2, t3, t4, t5, t6⟩ := string_step h
      exact ⟨t1, Nat.lt_of_lt_of_le (Nat.lt_succ_self _) t3, t4,
        fun hi => t6 (tokensInv_congr hi rfl (Nat.le_refl _))⟩
    rw [if_neg hc20] at h
    by_cases hc21 : c.isDigit = true
    · rw [if_pos hc21] at h
      have hx := Option.some.inj h
      subst hx
      obtain ⟨n1, n2, n3, n4, n5, n6⟩ := number_step { s with current := s.current + 1 }
      exact ⟨n1, Nat.lt_of_lt_of_le (Nat.lt_succ_self _) n5, Nat.le_of_eq n4.symm,
        fun hi => n6 (tokensInv_congr hi rfl (Nat.le_refl _))⟩
    rw [if_neg hc21] at h
    by_cases hc22 : (c.isAlpha || c = '_') = true
    · rw [if_pos hc22] at h
      have hx := Option.some.inj h
      subst hx
      obtain ⟨n1, n2, n3, n4, n5, n6⟩ := identifier_step { s with current := s.current + 1 }
      exact ⟨n1, Nat.lt_of_lt_of_le (Nat.lt_succ_self _) n5, Nat.le_of_eq n4.symm,
        fun hi => n6 (tokensInv_congr hi rfl (Nat.le_refl _))⟩
    rw [if_neg hc22] at h
    have hx := Option.some.inj h
    subst hx
    exact ⟨rfl, Nat.lt_succ_self _, Nat.le_refl _,
      fun hi => tokensInv_congr hi rfl (Nat.le_refl _)⟩

lemma tokensInv_new (src : List Char) : tokensInv (Scanner.new src) :=
  ⟨fun t ht => absurd ht (List.not_mem_nil t), List.Pairwise.nil,
   fun t ht => absurd ht (List.not_mem_nil t), Nat.le_refl 1⟩

lemma scanLoop_done (f : Nat) : ∀ s : Scanner, s.source.length - s.current ≤ f →
    (scanLoop f s).isDone = true := by
  induction f with
  | zero =>
    intro s hf
    have hend : s.is_at_end = true := by
      unfold Scanner.is_at_end
      exact decide_eq_true (by omega)
    rw [scanLoop, hend, if_pos rfl]
    rfl
  | succ f ih =>
    intro s hf
    rw [scanLoop]
    cases hend : s.is_at_end with
    | true =>
      rw [if_pos rfl]
      rfl
    | false =>
      rw [if_neg Bool.false_ne_true]
      cases hst : ({ s with start := s.current }).scan_token with
      | none =>
        rfl
      | some s2 =>
        show (scanLoop f s2).isDone = true
        obtain ⟨q1, q2, q3, q4⟩ := scan_token_step hst
        have q2' : s.current < s2.current := q2
        have hq : s2.source.length = s.source.length := by rw [q1]
        have hlt : s.current < s.source.length := is_at_end_false_iff.mp hend
        refine ih s2 ?_
        rw [hq]
        omega

lemma scanLoop_inv (f : Nat) : ∀ {s s2 : Scanner}, scanLoop f s = LoopRes.ok s2 →
    tokensInv s → tokensInv s2 := by
  induction f with
  | zero =>
    intro s s2 h hi
    rw [scanLoop] at h
    cases hend : s.is_at_end with
    | true =>
      rw [hend, if_pos rfl] at h
      have hss := LoopRes.ok.inj h
      subst hss
      exact hi
    | false =>
      rw [hend, if_neg Bool.false_ne_true] at h
      exact LoopRes.noConfusion h
  | succ f ih =>
    intro s s2 h hi
    rw [scanLoop] at h
    cases hend : s.is_at_end with
    | true =>
      rw [hend, if_pos rfl] at h
      have hss := LoopRes.ok.inj h
      subst hss
      exact hi
    | false =>
      rw [hend, if_neg Bool.false_ne_true] at h
      cases hst : ({ s with start := s.current }).scan_token with
      | none =>
        rw [hst] at h
        exact LoopRes.noConfusion h
      | some s3 =>
        rw [hst] at h
        obtain ⟨q1, q2, q3, q4⟩ := scan_token_step hst
        have hi3 : tokensInv s3 := q4 (tokensInv_congr hi
          (rfl : ({ s with start := s.current } : Scanner).tokens = s.tokens) (Nat.le_refl _))
        exact ih h hi3

/-! Claim theorems. -/

/-- C1: the spec claims input `"abc` yields a failed scan with exactly one
unterminated-string diagnostic and no tokens.  The code instead panics: after
recording the error, `Scanner::string` unconditionally executes
`self.advance()` to consume the (absent) closing quote, indexing one past the
end of the source.  `none` is the embedding of that panic. -/
theorem C1_unterminated_string_panics : scan_tokens "\"abc".toList = none := rfl

/-- C2: the spec claims `scan_tokens` is total on every input with no panic;
the input consisting of a single double quote refutes this — the scan panics
(index out of bounds in `Scanner::advance`, reached from `Scanner::string`
after the unterminated-string error is recorded). -/
theorem C2_totality_fails_panic : scan_tokens "\"".toList = none := rfl

/-- C3 counterexample: for input `"x` a diagnostic (unterminated string) is
raised during the pass, yet `scan_tokens` returns neither a diagnostic list
nor a token list — it panics (`none`), so the claimed dichotomy fails as
stated for every input. -/
theorem C3_counterexample : scan_tokens "\"x".toList = none := rfl

/-- C3 (amended): for every input on which the scanning loop completes
without panicking, `scan_tokens` returns the full diagnostic list (and
discards all accumulated tokens) iff at least one diagnostic was raised, and
otherwise returns the complete token list whose last element is the
end-of-input token with empty lexeme, the only `Eof` token in the list. -/
theorem C3_success_or_full_report (src : List Char) (s : Scanner)
    (h : scanLoop src.length (Scanner.new src) = LoopRes.ok s) :
    (s.errors ≠ [] → scan_tokens src = some (Except.error s.errors)) ∧
    (s.errors = [] → ∃ ts : List Token, scan_tokens src = some (Except.ok ts) ∧
      ts.getLast? = some { type_ := TokenType.Eof, lexeme := [], line := s.line } ∧
      ts.countP (fun t => t.type_.isEof) = 1) := by
  obtain ⟨i1, i2, i3, i4⟩ := scanLoop_inv _ h (tokensInv_new src)
  constructor
  · intro hne
    unfold scan_tokens
    rw [h]
    show (if s.errors.isEmpty then
        some (Except.ok (s.tokens ++ [{ type_ := TokenType.Eof, lexeme := [], line := s.line }]))
      else some (Except.error s.errors)) = some (Except.error s.errors)
    have hemp : s.errors.isEmpty = false := by
      cases herr : s.errors with
      | nil => exact absurd herr hne
      | cons a l => rfl
    rw [hemp, if_neg Bool.false_ne_true]
  · intro he
    refine ⟨s.tokens ++ [{ type_ := TokenType.Eof, lexeme := [], line := s.line }], ?_, ?_, ?_⟩
    · unfold scan_tokens
      rw [h]
      show (if s.errors.isEmpty then
          some (Except.ok (s.tokens ++ [{ type_ := TokenType.Eof, lexeme := [], line := s.line }]))
        else some (Except.error s.errors)) =
        some (Except.ok (s.tokens ++ [{ type_ := TokenType.Eof, lexeme := [], line := s.line }]))
      have hemp : s.errors.isEmpty = true := by rw [he]; rfl
      rw [hemp, if_pos rfl]
    · exact List.getLast?_concat _
    · rw [List.countP_append]
      have h0 : s.tokens.countP (fun t => t.type_.isEof) = 0 :=
        List.countP_eq_zero.mpr (fun t ht => by rw [i1 t ht]; exact Bool.false_ne_true)
      rw [h0]
      rfl

/-- C3 witness: on input `@` the loop completes with one diagnostic and the
scan reports exactly the full diagnostic list. -/
theorem C3_success_or_full_report_witness :
    scan_tokens "@".toList =
      some (Except.error [{ error := ScannerErrorType.UnexpectedCharacter '@', line := 1 }]) :=
  (C3_success_or_full_report "@".toList
    { source := "@".toList, tokens := [],
      errors := [{ error := ScannerErrorType.UnexpectedCharacter '@', line := 1 }],
      start := 0, current := 1, line := 1 }
    rfl).1 (List.cons_ne_nil _ _)

/-- C9: every successful `scan_token` strictly advances the cursor, and
consequently fuel equal to the input length always suffices for the main
scanning loop — the loop runs at most `source.length` iterations on any
finite input. -/
theorem C9_cursor_advances_and_loop_terminates :
    (∀ s s' : Scanner, s.scan_token = some s' → s.current < s'.current) ∧
    (∀ src : List Char, (scanLoop src.length (Scanner.new src)).isDone = true) := by
  constructor
  · intro s s' h
    exact (scan_token_step h).2.1
  · intro src
    exact scanLoop_done src.length (Scanner.new src) (Nat.le_refl _)

/-- C9 witness: one concrete step on input `+` advances the cursor from 0
to 1. -/
theorem C9_cursor_advances_and_loop_terminates_witness :
    (Scanner.new "+".toList).current <
      ({ source := "+".toList, tokens := [{ type_ := TokenType.Plus, lexeme := "+".toList, line := 1 }],
         errors := [], start := 0, current := 1, line := 1 } : Scanner).current :=
  C9_cursor_advances_and_loop_terminates.1 (Scanner.new "+".toList) _ rfl

/-- C10: in every successful scan the token line numbers are non-decreasing
in list order, the list ends in the `Eof` token, every token's line is at
most the `Eof` token's line, and all line numbers are at least 1. -/
theorem C10_token_lines_monotone (src : List Char) (ts : List Token)
    (h : scan_tokens src = some (Except.ok ts)) :
    List.Pairwise (fun a b : Token => a.line ≤ b.line) ts ∧
    ∃ tl : Token, ts.getLast? = some tl ∧ tl.type_ = TokenType.Eof ∧
      ∀ t ∈ ts, t.line ≤ tl.line ∧ 1 ≤ t.line := by
  unfold scan_tokens at h
  cases hres : scanLoop src.length (Scanner.new src) with
  | panic => rw [hres] at h; exact Option.noConfusion h
  | fuelOut => rw [hres] at h; exact Option.noConfusion h
  | ok s =>
    rw [hres] at h
    obtain ⟨i1, i2, i3, i4⟩ := scanLoop_inv _ hres (tokensInv_new src)
    have h2 : (if s.errors.isEmpty then
        some (Except.ok (s.tokens ++ [{ type_ := TokenType.Eof, lexeme := [], line := s.line }]))
      else some (Except.error s.errors)) = some (Except.ok ts) := h
    cases hemp : s.errors.isEmpty with
    | false =>
      rw [hemp, if_neg Bool.false_ne_true] at h2
      exact Except.noConfusion (Option.some.inj h2)
    | true =>
      rw [hemp, if_pos rfl] at h2
      have hts := Except.ok.inj (Option.some.inj h2)
      subst hts
      constructor
      · refine List.pairwise_append.mpr ⟨i2, List.pairwise_singleton _ _, ?_⟩
        intro a ha b hb
        rw [List.mem_singleton] at hb
        subst hb
        exact (i3 a ha).1
      · refine ⟨{ type_ := TokenType.Eof, lexeme := [], line := s.line },
          List.getLast?_concat _, rfl, ?_⟩
        intro t htm
        rcases List.mem_append.mp htm with hmem | hmem
        · exact ⟨(i3 t hmem).1, (i3 t hmem).2⟩
        · rw [List.mem_singleton] at hmem
          subst hmem
          exact ⟨Nat.le_refl _, i4⟩

/-- C10 witness: input `(` followed by a newline and `)` yields tokens on
lines 1, 2 and the end-of-input token on line 2, in non-decreasing order. -/
theorem C10_token_lines_monotone_witness :
    List.Pairwise (fun a b : Token => a.line ≤ b.line)
      [{ type_ := TokenType.LeftParen, lexeme := "(".toList, line := 1 },
       { type_ := TokenType.RightParen, lexeme := ")".toList, line := 2 },
       { type_ := TokenType.Eof, lexeme := [], line := 2 }] ∧
    ∃ tl : Token,
      ([{ type_ := TokenType.LeftParen, lexeme := "(".toList, line := 1 },
        { type_ := TokenType.RightParen, lexeme := ")".toList, line := 2 },
        { type_ := TokenType.Eof, lexeme := [], line := 2 }] : List Token).getLast? = some tl ∧
      tl.type_ = TokenType.Eof ∧
      ∀ t ∈ ([{ type_ := TokenType.LeftParen, lexeme := "(".toList, line := 1 },
        { type_ := TokenType.RightParen, lexeme := ")".toList, line := 2 },
        { type_ := TokenType.Eof, lexeme := [], line := 2 }] : List Token),
        t.line ≤ tl.line ∧ 1 ≤ t.line :=
  C10_token_lines_monotone "(\n)".toList _ rfl

lemma match_eq_true {s : Scanner} {e : Char} (hget : s.source[s.current]? = some e) :
    s.match_ e = (true, { s with current := s.current + 1 }) := by
  unfold Scanner.match_
  rw [hget]
  show (if e ≠ e then (false, s) else (true, { s with current := s.current + 1 })) =
    (true, { s with current := s.current + 1 })
  rw [if_neg (fun hne => hne rfl)]

lemma match_eq_false_of_ne {s : Scanner} {e c : Char} (hget : s.source[s.current]? = some c)
    (hne : c ≠ e) : s.match_ e = (false, s) := by
  unfold Scanner.match_
  rw [hget]
  show (if c ≠ e then (false, s) else (true, { s with current := s.current + 1 })) = (false, s)
  rw [if_pos hne]

lemma match_eq_false_of_none {s : Scanner} {e : Char} (hget : s.source[s.current]? = none) :
    s.match_ e = (false, s) := by
  unfold Scanner.match_
  rw [hget]

lemma digitsLoop_consumes {s : Scanner} (hd : s.peek.isDigit = true) :
    s.current + 1 ≤ (s.digitsLoop).current := by
  unfold Scanner.digitsLoop
  have hlt : s.current < s.source.length := by
    by_contra hge
    rw [peek_of_at_end (Nat.le_of_not_lt hge)] at hd
    exact absurd hd (by decide)
  obtain ⟨k, hk⟩ : ∃ k, s.source.length - s.current = k + 1 :=
    ⟨s.source.length - s.current - 1, by omega⟩
  rw [hk, digitsLoopF, if_pos hd]
  exact (digitsLoopF_spec k { s with current := s.current + 1 }).2.2.2.2.2

lemma identLoopF_post (f : Nat) : ∀ s : Scanner, s.source.length - s.current ≤ f →
    ((identLoopF f s).peek.isAlphanum || (identLoopF f s).peek == '_') = false := by
  induction f with
  | zero =>
    intro s hf
    show (s.peek.isAlphanum || s.peek == '_') = false
    rw [peek_of_at_end (by omega)]
    decide
  | succ f ih =>
    intro s hf
    rw [identLoopF]
    cases hcond : (s.peek.isAlphanum || s.peek == '_') with
    | true =>
      rw [if_pos rfl]
      refine ih _ ?_
      show s.source.length - (s.current + 1) ≤ f
      omega
    | false =>
      rw [if_neg Bool.false_ne_true]
      exact hcond

lemma identLoop_post (s : Scanner) :
    ((s.identLoop).peek.isAlphanum || (s.identLoop).peek == '_') = false :=
  identLoopF_post (s.source.length - s.current) s (Nat.le_refl _)

lemma stringLoopF_count (f : Nat) : ∀ s : Scanner, s.source.length - s.current ≤ f →
    (stringLoopF f s).line =
      s.line + ((sub s.source s.current ((stringLoopF f s).current)).countP (fun ch => ch == '\n')) := by
  induction f with
  | zero =>
    intro s hf
    show s.line = s.line + ((sub s.source s.current s.current).countP (fun ch => ch == '\n'))
    have hnil : sub s.source s.current s.current = [] := by
      unfold sub
      rw [Nat.sub_self]
      rfl
    rw [hnil, List.countP_nil, Nat.add_zero]
  | succ f ih =>
    intro s hf
    rw [stringLoopF]
    cases hcond : (s.peek != '\"' && !s.is_at_end) with
    | false =>
      rw [if_neg Bool.false_ne_true]
      show s.line = s.line + ((sub s.source s.current s.current).countP (fun ch => ch == '\n'))
      have hnil : sub s.source s.current s.current = [] := by
        unfold sub
        rw [Nat.sub_self]
        rfl
      rw [hnil, List.countP_nil, Nat.add_zero]
    | true =>
      rw [if_pos rfl]
      have hend : s.is_at_end = false := by
        have hc2 := ((Bool.and_eq_true _ _).mp hcond).2
        cases hb : s.is_at_end with
        | false => rfl
        | true => rw [hb] at hc2; exact absurd hc2 (by decide)
      have hlt : s.current < s.source.length := is_at_end_false_iff.mp hend
      have harith : ({ s with line := (if s.peek == '\n' then s.line + 1 else s.line), current := s.current + 1 } : Scanner).source.length -
          ({ s with line := (if s.peek == '\n' then s.line + 1 else s.line), current := s.current + 1 } : Scanner).current ≤ f := by
        show s.source.length - (s.current + 1) ≤ f
        omega
      have h1' : (stringLoopF f { s with line := (if s.peek == '\n' then s.line + 1 else s.line), current := s.current + 1 }).line =
          (if s.peek == '\n' then s.line + 1 else s.line) +
          ((sub s.source (s.current + 1)
            (stringLoopF f { s with line := (if s.peek == '\n' then s.line + 1 else s.line), current := s.current + 1 }).current).countP (fun ch => ch == '\n')) :=
        ih _ harith
      have hR : s.current <
          (stringLoopF f { s with line := (if s.peek == '\n' then s.line + 1 else s.line), current := s.current + 1 }).current :=
        Nat.lt_of_lt_of_le (Nat.lt_succ_self _) ((stringLoopF_spec f
          { s with line := (if s.peek == '\n' then s.line + 1 else s.line), current := s.current + 1 }).2.2.2.2.1)
      have hsub : sub s.source s.current
          (stringLoopF f { s with line := (if s.peek == '\n' then s.line + 1 else s.line), current := s.current + 1 }).current =
          s.source[s.current] :: sub s.source (s.current + 1)
            (stringLoopF f { s with line := (if s.peek == '\n' then s.line + 1 else s.line), current := s.current + 1 }).current :=
        sub_cons hlt hR
      rw [h1', hsub, List.countP_cons, ← peek_eq_getElem hlt]
      cases hnl : (s.peek == '\n') with
      | true =>
        rw [if_pos rfl, if_pos rfl]
        omega
      | false =>
        rw [if_neg Bool.false_ne_true, if_neg Bool.false_ne_true]
        omega

lemma stringLoop_count (s : Scanner) :
    (s.stringLoop).line =
      s.line + ((sub s.source s.current ((s.stringLoop).current)).countP (fun ch => ch == '\n')) :=
  stringLoopF_count (s.source.length - s.current) s (Nat.le_refl _)

/-- The one-character operator token for each of the four lookahead starters
(statement vocabulary for C4, following the spec's operator table). -/
def oneCharOp (c : Char) : TokenType :=
  if c = '!' then .Bang else if c = '=' then .Equal else if c = '<' then .Less else .Greater

/-- The two-character (`=`-suffixed) operator token for each of the four
lookahead starters. -/
def twoCharOp (c : Char) : TokenType :=
  if c = '!' then .BangEqual
  else if c = '=' then .EqualEqual
  else if c = '<' then .LessEqual
  else .GreaterEqual

/-- C4: on a one-or-two-character operator starter the dispatcher peeks the
character after it; if that character is `=` it is consumed and the
two-character operator token is emitted, otherwise only the one-character
token is emitted and the cursor does not move.  In particular `!=` scans to
a single BangEqual token and `!` to a single Bang token. -/
theorem C4_operator_maximal_munch :
    (∀ (s1 : Scanner) (c : Char), c ∈ ['!', '=', '<', '>'] →
      (s1.source[s1.current]? = some '=' →
        s1.dispatch c = some (({ s1 with current := s1.current + 1 }).add_token (twoCharOp c))) ∧
      (s1.source[s1.current]? ≠ some '=' →
        s1.dispatch c = some (s1.add_token (oneCharOp c)))) ∧
    scan_tokens "!=".toList = some (Except.ok
      [{ type_ := TokenType.BangEqual, lexeme := "!=".toList, line := 1 },
       { type_ := TokenType.Eof, lexeme := [], line := 1 }]) ∧
    scan_tokens "!".toList = some (Except.ok
      [{ type_ := TokenType.Bang, lexeme := "!".toList, line := 1 },
       { type_ := TokenType.Eof, lexeme := [], line := 1 }]) := by
  refine ⟨?_, rfl, rfl⟩
  intro s1 c hmem
  simp only [List.mem_cons, List.not_mem_nil, or_false] at hmem
  rcases hmem with rfl | rfl | rfl | rfl
  · constructor
    · intro hnext
      have hm := match_eq_true hnext
      have hd : s1.dispatch '!' = some ((s1.match_ '=').2.add_token
          (if (s1.match_ '=').1 then TokenType.BangEqual else TokenType.Bang)) := rfl
      rw [hd, hm]
      rfl
    · intro hnext
      have hd : s1.dispatch '!' = some ((s1.match_ '=').2.add_token
          (if (s1.match_ '=').1 then TokenType.BangEqual else TokenType.Bang)) := rfl
      cases hd2 : s1.source[s1.current]? with
      | none =>
        rw [hd, match_eq_false_of_none hd2]
        rfl
      | some d =>
        have hne : d ≠ '=' := by
          intro hdd
          subst hdd
          exact hnext hd2
        rw [hd, match_eq_false_of_ne hd2 hne]
        rfl
  · constructor
    · intro hnext
      have hm := match_eq_true hnext
      have hd : s1.dispatch '=' = some ((s1.match_ '=').2.add_token
          (if (s1.match_ '=').1 then TokenType.EqualEqual else TokenType.Equal)) := rfl
      rw [hd, hm]
      rfl
    · intro hnext
      have hd : s1.dispatch '=' = some ((s1.match_ '=').2.add_token
          (if (s1.match_ '=').1 then TokenType.EqualEqual else TokenType.Equal)) := rfl
      cases hd2 : s1.source[s1.current]? with
      | none =>
        rw [hd, match_eq_false_of_none hd2]
        rfl
      | some d =>
        have hne : d ≠ '=' := by
          intro hdd
          subst hdd
          exact hnext hd2
        rw [hd, match_eq_false_of_ne hd2 hne]
        rfl
  · constructor
    · intro hnext
      have hm := match_eq_true hnext
      have hd : s1.dispatch '<' = some ((s1.match_ '=').2.add_token
          (if (s1.match_ '=').1 then TokenType.LessEqual else TokenType.Less)) := rfl
      rw [hd, hm]
      rfl
    · intro hnext
      have hd : s1.dispatch '<' = some ((s1.match_ '=').2.add_token
          (if (s1.match_ '=').1 then TokenType.LessEqual else TokenType.Less)) := rfl
      cases hd2 : s1.source[s1.current]? with
      | none =>
        rw [hd, match_eq_false_of_none hd2]
        rfl
      | some d =>
        have hne : d ≠ '=' := by
          intro hdd
          subst hdd
          exact hnext hd2
        rw [hd, match_eq_false_of_ne hd2 hne]
        rfl
  · constructor
    · intro hnext
      have hm := match_eq_true hnext
      have hd : s1.dispatch '>' = some ((s1.match_ '=').2.add_token
          (if (s1.match_ '=').1 then TokenType.GreaterEqual else TokenType.Greater)) := rfl
      rw [hd, hm]
      rfl
    · intro hnext
      have hd : s1.dispatch '>' = some ((s1.match_ '=').2.add_token
          (if (s1.match_ '=').1 then TokenType.GreaterEqual else TokenType.Greater)) := rfl
      cases hd2 : s1.source[s1.current]? with
      | none =>
        rw [hd, match_eq_false_of_none hd2]
        rfl
      | some d =>
        have hne : d ≠ '=' := by
          intro hdd
          subst hdd
          exact hnext hd2
        rw [hd, match_eq_false_of_ne hd2 hne]
        rfl

/-- C4 witness: on the concrete mid-scan state for input `<=` (the `<`
consumed), the next character `=` is consumed and LessEqual is emitted. -/
theorem C4_operator_maximal_munch_witness :
    ({ source := "<=".toList, tokens := [], errors := [], start := 0, current := 1, line := 1 } : Scanner).dispatch '<' =
      some (({ source := "<=".toList, tokens := [], errors := [], start := 0, current := 2, line := 1 } : Scanner).add_token (twoCharOp '<')) :=
  (C4_operator_maximal_munch.1
    { source := "<=".toList, tokens := [], errors := [], start := 0, current := 1, line := 1 }
    '<' (by decide)).1 rfl

/-- C5: after the integer digit run, a `.` is consumed into the number lexeme
only when the character after it is also a digit (then at least the dot and
one fractional digit are consumed); otherwise the token ends at the digit
run and the cursor stays before the `.`.  In particular `123.` scans to
Number(123) followed by Dot. -/
theorem C5_number_dot_boundary :
    (∀ s : Scanner,
      ((s.digitsLoop).peek == '.' && (s.digitsLoop).peek_next.isDigit) = false →
      (s.number).tokens = s.tokens ++
        [{ type_ := TokenType.Number (sub s.source s.start ((s.digitsLoop).current)),
           lexeme := sub s.source s.start ((s.digitsLoop).current), line := s.line }] ∧
      (s.number).current = (s.digitsLoop).current) ∧
    (∀ s : Scanner,
      ((s.digitsLoop).peek == '.' && (s.digitsLoop).peek_next.isDigit) = true →
      (s.digitsLoop).current + 2 ≤ (s.number).current) ∧
    scan_tokens "123.".toList = some (Except.ok
      [{ type_ := TokenType.Number "123".toList, lexeme := "123".toList, line := 1 },
       { type_ := TokenType.Dot, lexeme := ".".toList, line := 1 },
       { type_ := TokenType.Eof, lexeme := [], line := 1 }]) := by
  refine ⟨?_, ?_, rfl⟩
  · intro s hc
    unfold Scanner.number Scanner.numberFinish
    rw [hc, if_neg Bool.false_ne_true]
    obtain ⟨d1, d2, d3, d4, d5, d6⟩ := digitsLoop_spec s
    constructor
    · show (s.digitsLoop).tokens ++
        [{ type_ := TokenType.Number (sub (s.digitsLoop).source ((s.digitsLoop).start)
             ((s.digitsLoop).current)),
           lexeme := sub (s.digitsLoop).source ((s.digitsLoop).start) ((s.digitsLoop).current),
           line := (s.digitsLoop).line }] =
        s.tokens ++
        [{ type_ := TokenType.Number (sub s.source s.start ((s.digitsLoop).current)),
           lexeme := sub s.source s.start ((s.digitsLoop).current), line := s.line }]
      rw [d1, d2, d3, d5]
    · rfl
  · intro s hc
    unfold Scanner.number Scanner.numberFinish
    rw [hc, if_pos rfl]
    have hc2 := ((Bool.and_eq_true _ _).mp hc).2
    exact digitsLoop_consumes
      (show ({ s.digitsLoop with current := (s.digitsLoop).current + 1 } : Scanner).peek.isDigit = true
        from hc2)

/-- C5 witness: on the concrete mid-scan state for input `123.` (the `1`
consumed), the emitted number token is exactly `123` and the cursor stops
before the trailing dot. -/
theorem C5_number_dot_boundary_witness :
    (({ source := "123.".toList, tokens := [], errors := [], start := 0, current := 1, line := 1 } : Scanner).number).tokens =
      [{ type_ := TokenType.Number "123".toList, lexeme := "123".toList, line := 1 }] ∧
    (({ source := "123.".toList, tokens := [], errors := [], start := 0, current := 1, line := 1 } : Scanner).number).current = 3 :=
  C5_number_dot_boundary.1
    { source := "123.".toList, tokens := [], errors := [], start := 0, current := 1, line := 1 }
    rfl

/-- C6: an identifier lexeme is the maximal run of ASCII alphanumerics and
underscores (the character after it fits neither class), and the token kind
comes from whole-lexeme lookup in the 16-entry keyword table: exactly the 16
reserved words map to keyword kinds, any other text maps to an Identifier
token carrying the text, and in particular `classic` scans to
Identifier("classic"), not the Class keyword. -/
theorem C6_keyword_vs_identifier :
    (∀ s : Scanner,
      s.identifier = (s.identLoop).add_token
        (keywordLookup (sub s.source s.start ((s.identLoop).current))) ∧
      ((s.identLoop).peek.isAlphanum || (s.identLoop).peek == '_') = false) ∧
    (∀ text : List Char,
      text ∉ ["and".toList, "class".toList, "else".toList, "false".toList, "for".toList,
        "fun".toList, "if".toList, "nil".toList, "or".toList, "print".toList, "return".toList,
        "super".toList, "this".toList, "true".toList, "var".toList, "while".toList] →
      keywordLookup text = TokenType.Identifier text) ∧
    (keywordLookup "and".toList = TokenType.And ∧
     keywordLookup "class".toList = TokenType.Class ∧
     keywordLookup "else".toList = TokenType.Else ∧
     keywordLookup "false".toList = TokenType.False ∧
     keywordLookup "for".toList = TokenType.For ∧
     keywordLookup "fun".toList = TokenType.Fun ∧
     keywordLookup "if".toList = TokenType.If ∧
     keywordLookup "nil".toList = TokenType.Nil ∧
     keywordLookup "or".toList = TokenType.Or ∧
     keywordLookup "print".toList = TokenType.Print ∧
     keywordLookup "return".toList = TokenType.Return ∧
     keywordLookup "super".toList = TokenType.Super ∧
     keywordLookup "this".toList = TokenType.This ∧
     keywordLookup "true".toList = TokenType.True ∧
     keywordLookup "var".toList = TokenType.Var ∧
     keywordLookup "while".toList = TokenType.While) ∧
    scan_tokens "classic".toList = some (Except.ok
      [{ type_ := TokenType.Identifier "classic".toList, lexeme := "classic".toList, line := 1 },
       { type_ := TokenType.Eof, lexeme := [], line := 1 }]) := by
  refine ⟨?_, ?_,
    ⟨rfl, rfl, rfl, rfl, rfl, rfl, rfl, rfl, rfl, rfl, rfl, rfl, rfl, rfl, rfl, rfl⟩, rfl⟩
  · intro s
    obtain ⟨d1, d2, d3, d4, d5, d6⟩ := identLoop_spec s
    refine ⟨?_, identLoop_post s⟩
    unfold Scanner.identifier Scanner.identFinish
    rw [d1, d2]
  · intro text hmem
    simp only [List.mem_cons, List.not_mem_nil, or_false] at hmem
    push_neg at hmem
    obtain ⟨g1, g2, g3, g4, g5, g6, g7, g8, g9, g10, g11, g12, g13, g14, g15, g16⟩ := hmem
    unfold keywordLookup
    rw [if_neg g1, if_neg g2, if_neg g3, if_neg g4, if_neg g5, if_neg g6, if_neg g7, if_neg g8,
        if_neg g9, if_neg g10, if_neg g11, if_neg g12, if_neg g13, if_neg g14, if_neg g15,
        if_neg g16]

/-- C6 witness: the text `classic` is not a reserved word, so its lookup is
the Identifier token carrying the text. -/
theorem C6_keyword_vs_identifier_witness :
    keywordLookup "classic".toList = TokenType.Identifier "classic".toList :=
  C6_keyword_vs_identifier.2.1 "classic".toList (by decide)

/-- C7: for a string literal whose closing quote is found, `string` emits one
token whose payload is exactly the source text strictly between the quotes
(verbatim, no escape processing), the cursor ends just past the closing
quote, and the token is stamped with the final line counter, which equals the
starting line plus the number of newlines inside the literal. -/
theorem C7_string_literal_verbatim (s : Scanner) (hsc : s.current = s.start + 1)
    (hterm : (s.stringLoop).peek = '\"') :
    ∃ s' : Scanner, s.string = some s' ∧
      s'.current = (s.stringLoop).current + 1 ∧
      s'.tokens = s.tokens ++
        [{ type_ := TokenType.String (sub s.source s.current ((s.stringLoop).current)),
           lexeme := sub s.source s.start ((s.stringLoop).current + 1), line := s'.line }] ∧
      s'.line = s.line +
        ((sub s.source s.current ((s.stringLoop).current)).countP (fun ch => ch == '\n')) := by
  obtain ⟨l1, l2, l3, l4, l5, l6⟩ := stringLoop_spec s
  have hlt : (s.stringLoop).current < (s.stringLoop).source.length := by
    by_contra hge
    rw [peek_of_at_end (Nat.le_of_not_lt hge)] at hterm
    exact absurd hterm (by decide)
  have hend : (s.stringLoop).is_at_end = false := by
    unfold Scanner.is_at_end
    exact decide_eq_false (by omega)
  have hadv : (s.stringLoop).advance =
      some ((s.stringLoop).source[(s.stringLoop).current],
        { s.stringLoop with current := (s.stringLoop).current + 1 }) := by
    unfold Scanner.advance
    rw [List.getElem?_eq_getElem hlt]
  have hstr : s.string =
      some (({ s.stringLoop with current := (s.stringLoop).current + 1 }).add_token
        (TokenType.String (sub ({ s.stringLoop with current := (s.stringLoop).current + 1 }).source
          (({ s.stringLoop with current := (s.stringLoop).current + 1 }).start + 1)
          (({ s.stringLoop with current := (s.stringLoop).current + 1 }).current - 1)))) := by
    unfold Scanner.string
    rw [hend, if_neg Bool.false_ne_true, hadv]
  refine ⟨_, hstr, rfl, ?_, ?_⟩
  · show (s.stringLoop).tokens ++
        [{ type_ := TokenType.String
             (sub (s.stringLoop).source ((s.stringLoop).start + 1) ((s.stringLoop).current)),
           lexeme := sub (s.stringLoop).source ((s.stringLoop).start) ((s.stringLoop).current + 1),
           line := (s.stringLoop).line }] =
      s.tokens ++
        [{ type_ := TokenType.String (sub s.source s.current ((s.stringLoop).current)),
           lexeme := sub s.source s.start ((s.stringLoop).current + 1),
           line := (s.stringLoop).line }]
    rw [l1, l2, l3, hsc]
  · show (s.stringLoop).line = s.line +
      ((sub s.source s.current ((s.stringLoop).current)).countP (fun ch => ch == '\n'))
    exact stringLoop_count s

/-- C7 witness: the two-line literal `"a⏎b"` yields a string token with
verbatim payload `a⏎b`, ending cursor 5, stamped with line 2 = 1 + one
newline. -/
theorem C7_string_literal_verbatim_witness :
    ∃ s' : Scanner,
      ({ source := "\"a\nb\"".toList, tokens := [], errors := [], start := 0, current := 1, line := 1 } : Scanner).string = some s' ∧
      s'.current = 5 ∧
      s'.tokens = [{ type_ := TokenType.String "a\nb".toList, lexeme := "\"a\nb\"".toList, line := s'.line }] ∧
      s'.line = 1 + 1 :=
  C7_string_literal_verbatim
    { source := "\"a\nb\"".toList, tokens := [], errors := [], start := 0, current := 1, line := 1 }
    rfl rfl

/-- C8: an unexpected character is non-fatal — the dispatcher records an
unexpected-character diagnostic (touching nothing else in the state, so
scanning continues with the next character), and input `@ # 5` yields a
failed scan with exactly the two diagnostics `@` and `#` in order, no tokens
returned even though the number between them scans successfully. -/
theorem C8_multi_error_accumulation :
    (∀ (s1 : Scanner) (c : Char),
      c ∉ ['(', ')', '\x7b', '\x7d', ',', '.', '-', '+', ';', '*', '!', '=', '<', '>', '/',
           ' ', '\r', '\t', '\n', '\"'] →
      c.isDigit = false → c.isAlpha = false → c ≠ '_' →
      s1.dispatch c = some (s1.add_error (ScannerErrorType.UnexpectedCharacter c))) ∧
    scan_tokens "@ # 5".toList = some (Except.error
      [{ error := ScannerErrorType.UnexpectedCharacter '@', line := 1 },
       { error := ScannerErrorType.UnexpectedCharacter '#', line := 1 }]) := by
  refine ⟨?_, rfl⟩
  intro s1 c hmem hdig halpha hund
  simp only [List.mem_cons, List.not_mem_nil, or_false] at hmem
  push_neg at hmem
  obtain ⟨g1, g2, g3, g4, g5, g6, g7, g8, g9, g10, g11, g12, g13, g14, g15, g16, g17, g18,
    g19, g20⟩ := hmem
  unfold Scanner.dispatch
  rw [if_neg g1, if_neg g2, if_neg g3, if_neg g4, if_neg g5, if_neg g6, if_neg g7, if_neg g8,
      if_neg g9, if_neg g10, if_neg g11, if_neg g12, if_neg g13, if_neg g14, if_neg g15,
      if_neg g16, if_neg g17, if_neg g18, if_neg g19, if_neg g20]
  rw [if_neg (show ¬(c.isDigit = true) by rw [hdig]; exact Bool.false_ne_true)]
  rw [if_neg (show ¬((c.isAlpha || c = '_') = true) by
    rw [halpha, decide_eq_false hund]; decide)]

/-- C8 witness: the character `@` on a fresh scanner is recorded as an
unexpected-character diagnostic and nothing else changes. -/
theorem C8_multi_error_accumulation_witness :
    (Scanner.new "@".toList).dispatch '@' =
      some ((Scanner.new "@".toList).add_error (ScannerErrorType.UnexpectedCharacter '@')) :=
  C8_multi_error_accumulation.1 (Scanner.new "@".toList) '@' (by decide) rfl rfl (by decide)
